import Mathlib

/-!
Verification of the Soot-based symbolic execution engine
(src/angr/engines/soot/engine.py) against its natural-language
specification.

The development shallowly embeds the engine core: address descriptors,
blocks and methods, the execution state (call stack, scoped memory),
the successor accumulator, and the dispatcher functions
(`lift`, `_process`, `_handle_block`, `_handle_statement`,
`_get_next_linear_instruction`, `setup_callsite`, `prepare_return_state`,
`terminate_execution`, `_setup_native_callsite`,
`prepare_native_return_state`).  Python exceptions are embedded as
`Except` errors; the raw-statement translator (external to the engine)
is embedded as the translation outcome each raw statement carries.
-/

deriving instance DecidableEq for Except

namespace Soot

/-- A machine value: a bit-vector of some width.  Symbolic backends are out
of scope; the engine only moves values around, so width/payload suffice. -/
structure Value where
  width : Nat
  val : Nat
deriving DecidableEq, Repr

/-- A method descriptor (SootMethodDescriptor): declaring class, name, the
parameter type list, attribute flags (the engine tests membership of
"NATIVE"), and the declared return type. -/
structure MethodSig where
  class_name : String
  name : String
  params : List String
  attrs : List String
  ret : String
deriving DecidableEq, Repr

/-- The (method, block index, statement index) part of a
SootAddressDescriptor, as used by the dispatcher (where stmt_idx is a
number). -/
structure Desc where
  method : MethodSig
  block_idx : Nat
  stmt_idx : Nat
deriving DecidableEq, Repr

/-- A code address: a Soot descriptor, the SootAddressTerminator sentinel,
or a native (machine) address produced for native call targets. -/
inductive Addr where
  | soot (d : Desc)
  | terminator
  | native (a : Nat)
deriving DecidableEq, Repr

/-- A local-variable reference (SimSootValue_Local / SimSootValue_ParamRef),
used as a store destination. -/
inductive VarRef where
  | local (name : String) (ty : String)
  | paramRef (idx : Nat) (ty : String)
deriving DecidableEq, Repr

/-- The declared Java type of a variable reference. -/
def VarRef.ty : VarRef → String
  | .local _ t => t
  | .paramRef _ t => t

/-- An argument of a pending call (JavaArgument): a value and its type. -/
structure JavaArgument where
  value : Value
  ty : String
deriving DecidableEq, Repr

/-- A guard condition on a successor: the solver's true constant
(state.se.true) or a symbolic condition produced by the translator. -/
inductive Guard where
  | true_
  | cond (c : Nat)
deriving DecidableEq, Repr

/-- The transition kind attached to a successor (the Ijk_* strings). -/
inductive Jumpkind where
  | call
  | boring
  | ret
  | exit
deriving DecidableEq, Repr

/-- A structured statement as classified by the external translator
(translate_stmt): the dispatcher only inspects has_invoke_target,
has_jump_targets, whether the statement is a Return/ReturnVoid, and the
corresponding payloads.  `ret (some v)` is SimSootStmt_Return with value
v, `ret none` is SimSootStmt_ReturnVoid.  In an invoke, the first
argument entry is the receiver reference or none for a static call. -/
inductive SStmt where
  | invoke (method : MethodSig) (args : List (Option JavaArgument)) (ret_var : Option VarRef)
  | jump (targets : List (Option Addr × Guard))
  | ret (value : Option Value)
  | fallthrough
deriving DecidableEq, Repr

/-- A raw Soot statement, represented by what the external translate_stmt
yields for it: none models a statement whose translation raises
SimEngineError.  Raw statement objects in lifted blocks are never the
Python None object, so the dispatcher's "stmt is None" test is false
whenever stmt is bound. -/
def RawStmt := Option SStmt
deriving instance DecidableEq, Repr for RawStmt

/-- A basic block: an ordered sequence of raw statements. -/
structure Block where
  statements : List RawStmt
deriving DecidableEq, Repr

/-- A loaded method: its ordered block list. -/
structure Method where
  blocks : List Block
deriving DecidableEq, Repr

/-- A call frame: saved return address, return-value destination slot, and
the opaque pass-through payload for built-in procedures. -/
structure Frame where
  ret_addr : Addr
  invoke_return_variable : Option VarRef
  procedure_data : Option Nat
deriving DecidableEq, Repr

/-- The call stack plugin: attribute access (ret_addr, ...) reads the top
frame; there is always a current frame (the base frame of the entry
state sits at the bottom). -/
structure Callstack where
  top : Frame
  rest : List Frame
deriving DecidableEq, Repr

/-- Pushing a frame makes it the new top (the engine pushes a copy of the
current frame and then overwrites its fields). -/
def Callstack.push (cs : Callstack) (f : Frame) : Callstack :=
  ⟨f, cs.top :: cs.rest⟩

/-- Popping the top frame; popping past the base frame raises
SimEmptyCallStackError, embedded as none. -/
def Callstack.pop : Callstack → Option Callstack
  | ⟨_, f :: fs⟩ => some ⟨f, fs⟩
  | ⟨_, []⟩ => none

/-- Call-stack depth: the number of frames. -/
def Callstack.depth (cs : Callstack) : Nat :=
  cs.rest.length + 1

/-- One local-variable scope: bindings of variable references to values;
the most recent binding of a reference shadows earlier ones. -/
def Scope := List (VarRef × Value)
deriving instance DecidableEq, Repr for Scope

/-- The javavm memory's stack of scopes; the head is the current frame's
scope. -/
def Memory := List Scope
deriving instance DecidableEq, Repr for Memory

/-- push_stack_frame: enter a fresh empty scope. -/
def Memory.pushStackFrame (m : Memory) : Memory :=
  [] :: m

/-- store: bind a reference in the current (innermost) scope.  With no
active scope the plugin fails (Python IndexError), embedded as none. -/
def Memory.store : Memory → VarRef → Value → Option Memory
  | [], _, _ => none
  | s :: rest, r, v => some (((r, v) :: s) :: rest)

/-- load: look a reference up in the current scope. -/
def Memory.load (m : Memory) (r : VarRef) : Option Value :=
  match m with
  | [] => none
  | s :: _ => (s.find? (fun p => decide (p.1 = r))).map (·.2)

/-- The execution state fields the engine core touches: instruction
pointer, call stack, scoped memory, and the registers/scratch fields
written by the return paths. -/
structure State where
  ip : Addr
  callstack : Callstack
  memory : Memory
  invoke_return_value : Option Value
  scratch_guard : Option Guard
  history_jumpkind : Option Jumpkind
deriving DecidableEq, Repr

/-- The record of a call to the external native-call constructor
simos.state_call(native_addr, *args, base_state, ret_type): the engine's
observable interface to the foreign calling convention. -/
structure NativeCallArgs where
  addr : Nat
  args : List (Option JavaArgument)
  ret_type : String
  base_state : State
deriving DecidableEq, Repr

/-- The state carried by a successor: a Soot-level state, or the native
call-site produced by simos.state_call. -/
inductive SuccState where
  | java (s : State)
  | nativeCall (c : NativeCallArgs)
deriving DecidableEq, Repr

/-- One entry of the successor accumulator, as built by
successors.add_successor(state, target, guard, jumpkind). -/
structure Successor where
  state : SuccState
  target : Addr
  guard : Guard
  kind : Jumpkind
deriving DecidableEq, Repr

/-- The successor accumulator: the ordered successor list plus the
processed flag. -/
structure Successors where
  succs : List Successor
  processed : Bool
deriving DecidableEq, Repr

/-- The Python exceptions the engine core can raise, plus the engine's own
exception types. -/
inductive EngineError where
  | incorrectLocation
  | translationError
  | cleError
  | indexError
  | unboundLocal
  | attributeError
  | emptyCallStack
  | keyError
  | blockTermination
deriving DecidableEq, Repr

/-- The project/loader context the engine reads: the loader's method table
(get_soot_method / get_method; none embeds CLEError), the sim-procedure
switch and hook table, and the simos values used by the native bridge. -/
structure Project where
  binary : MethodSig → Option Method
  use_sim_procedures : Bool
  simProcedureAt : Desc → Bool
  nativeAddrOf : MethodSig → Nat
  jni_env : Value
  getClass : String → Value

/-- SimEngineSoot.lift: its slow-path loop walks enumerate(method.blocks)
and returns the block whose running index equals addr.block_idx. -/
def liftFind : List Block → Nat → Nat → Option Block
  | [], _, _ => none
  | b :: rest, target, i => if i = target then some b else liftFind rest target (i + 1)

/-- SimEngineSoot.lift (the Block Resolver): resolve the method through the
loader (a CLEError is re-raised as SimTranslationError); with no
statement index return the first block (or none for a method with no
blocks), otherwise run the enumerate loop over the block list. -/
def lift (the_binary : MethodSig → Option Method) (method : MethodSig)
    (block_idx : Nat) (stmt_idx : Option Nat) : Except EngineError (Option Block) :=
  match the_binary method with
  | none => .error .translationError
  | some m =>
    match stmt_idx with
    | none => .ok (match m.blocks with | [] => none | b :: _ => some b)
    | some _ => .ok (liftFind m.blocks block_idx 0)

/-- SimEngineSoot._get_next_linear_instruction: copy the state's address,
overwrite its stmt_idx with the given one, re-resolve the method, and
advance within the block, then to the next block, and otherwise raise
IncorrectLocationException. -/
def get_next_linear_instruction (binary : MethodSig → Option Method)
    (state_addr : Desc) (stmt_idx : Nat) : Except EngineError Desc :=
  let addr : Desc := { state_addr with stmt_idx := stmt_idx }
  match binary addr.method with
  | none => .error .cleError
  | some method =>
    match method.blocks.get? addr.block_idx with
    | none => .error .indexError
    | some current_bb =>
      let new_stmt_idx := addr.stmt_idx + 1
      if new_stmt_idx < current_bb.statements.length then
        .ok ⟨addr.method, addr.block_idx, new_stmt_idx⟩
      else
        let new_bb_idx := addr.block_idx + 1
        if new_bb_idx < method.blocks.length then
          .ok ⟨addr.method, new_bb_idx, 0⟩
        else
          .error .incorrectLocation

/-- The argument-storing loop of setup_callsite: store each remaining
argument under a positional parameter slot.  Reading .type/.value of a
Python None entry raises AttributeError. -/
def storeParams : Memory → Nat → List (Option JavaArgument) → Except EngineError Memory
  | m, _, [] => .ok m
  | m, idx, some arg :: rest =>
    match Memory.store m (.paramRef idx arg.ty) arg.value with
    | none => .error .indexError
    | some m2 => storeParams m2 (idx + 1) rest
  | _, _, none :: _ => .error .attributeError

/-- SimEngineSoot.setup_callsite: push a call frame carrying ret_addr and
ret_var (the pushed frame starts as a copy of the current one), push a
memory scope, and, when an argument list is given and non-empty, store
the receiver (when present) under the reserved "this" local and the
remaining arguments under positional parameter slots. -/
def setup_callsite (st0 : State) (args : Option (List (Option JavaArgument)))
    (ret_addr : Addr) (ret_var : Option VarRef) : Except EngineError State :=
  let cs := Callstack.push st0.callstack
    { st0.callstack.top with ret_addr := ret_addr, invoke_return_variable := ret_var }
  let st := { st0 with callstack := cs, memory := Memory.pushStackFrame st0.memory }
  match args with
  | none => .ok st
  | some [] => .ok st
  | some (this_ref :: params) =>
    let afterThis : Except EngineError State :=
      match this_ref with
      | some tr =>
        match Memory.store st.memory (.local "this" tr.ty) tr.value with
        | none => .error .indexError
        | some m => .ok { st with memory := m }
      | none => .ok st
    match afterThis with
    | .error e => .error e
    | .ok st1 =>
      match storeParams st1.memory 0 params with
      | .error e => .error e
      | .ok m => .ok { st1 with memory := m }

/-- SimEngineSoot.prepare_return_state: read the top frame's return
destination and pass-through payload, pop the call frame and the memory
scope, re-attach the payload to the now-current frame, and store the
return value (if any) into the caller's destination slot, or into the
invoke_return_value register when no destination is set. -/
def prepare_return_state (st0 : State) (ret_value : Option Value) : Except EngineError State :=
  let ret_var := st0.callstack.top.invoke_return_variable
  let procedure_data := st0.callstack.top.procedure_data
  match st0.callstack.pop with
  | none => .error .emptyCallStack
  | some cs0 =>
    match st0.memory with
    | [] => .error .indexError
    | _ :: mem =>
      let cs := { cs0 with top := { cs0.top with procedure_data := procedure_data } }
      let st := { st0 with callstack := cs, memory := mem }
      match ret_value with
      | none => .ok st
      | some rv =>
        match ret_var with
        | some v =>
          match Memory.store st.memory v rv with
          | none => .error .indexError
          | some m => .ok { st with memory := m }
        | none => .ok { st with invoke_return_value := some rv }

/-- The machine word width of the Soot architecture (state.arch.bits),
used to widen a concrete exit code. -/
def archBits : Nat := 64

/-- SimEngineSoot.terminate_execution: the end-of-program path.  It widens
the return value (if the statement is a value-carrying return) to the
machine width, emits a single successor with transition kind exit at
the current instruction pointer, marks the accumulator processed, and
raises BlockTerminationNotice.  No call site exists in the engine
source: the dispatcher's return branch never invokes it. -/
def terminate_execution (statement : Option SStmt) (st : State) (succs : Successors) :
    EngineError × Successors :=
  let _exit_code : Value :=
    match statement with
    | some (.ret (some v)) => ⟨archBits, v.val % 2 ^ archBits⟩
    | _ => ⟨archBits, 0⟩
  (.blockTermination,
   { succs := succs.succs ++ [⟨.java st, st.ip, .true_, .exit⟩], processed := true })

/-- Python list.insert: insert before the given index, clamping an index
past the end (so insert(1, x) on an empty list appends x). -/
def pyInsert : List α → Nat → α → List α
  | l, 0, x => x :: l
  | [], _ + 1, x => [x]
  | y :: ys, n + 1, x => y :: pyInsert ys n x

/-- SimEngineSoot._setup_native_callsite: set up the java call site without
storing arguments, build the JNIEnv argument, pop the leading
receiver/class entry (popping an empty list raises IndexError); for an
instance call keep the receiver as ref and additionally insert it at
position 1 of the remaining list; for a static call resolve a class
reference (initializing the class) and use it as ref; then pass
[jni_env, ref] ++ args to simos.state_call together with the native
address and the method's declared return type. -/
def setup_native_callsite (proj : Project) (st0 : State) (native_addr : Nat)
    (java_method : MethodSig) (args : List (Option JavaArgument))
    (ret_addr : Addr) (ret_var : Option VarRef) : Except EngineError NativeCallArgs :=
  match setup_callsite st0 none ret_addr ret_var with
  | .error e => .error e
  | .ok st =>
    let jni_env : JavaArgument := ⟨proj.jni_env, "JNIEnv"⟩
    match args with
    | [] => .error .indexError
    | this_ref :: rest =>
      match this_ref with
      | some tr =>
        let rest2 := pyInsert rest 1 (some tr)
        .ok ⟨native_addr, some jni_env :: some tr :: rest2, java_method.ret, st⟩
      | none =>
        let ref : JavaArgument := ⟨proj.getClass java_method.class_name, "Class"⟩
        .ok ⟨native_addr, some jni_env :: some ref :: rest, java_method.ret, st⟩

/-- The per-target loop of the jump branch of _handle_statement: a missing
target is resolved through the next-linear-instruction rule (whose
IncorrectLocationException propagates, keeping the successors added so
far inside the raised error); each pair adds one successor with kind
boring under its own condition. -/
def addJumpSuccs (binary : MethodSig → Option Method) (addr : Desc) (st : State)
    (stmt_idx : Nat) (succs : Successors) :
    List (Option Addr × Guard) → Except (EngineError × Successors) Successors
  | [] => .ok succs
  | (target, condition) :: rest =>
    let computed : Except EngineError Addr :=
      match target with
      | none => (get_next_linear_instruction binary addr stmt_idx).map Addr.soot
      | some t => .ok t
    match computed with
    | .error e => .error (e, succs)
    | .ok computed_target =>
      addJumpSuccs binary addr st stmt_idx
        { succs with succs := succs.succs ++ [⟨.java st, computed_target, condition, .boring⟩] }
        rest

/-- SimEngineSoot._handle_statement: translate the raw statement (a
SimEngineError is logged and the statement skipped); an invoke computes
the return address (IncorrectLocationException propagates before any
successor is added), sets up a native or regular call site, adds one
successor with kind call and true guard, and terminates the block; a
jump adds one successor per (target, condition) pair and terminates the
block; a return prepares the return state, adds one successor with kind
ret to the frame's saved return address, marks the accumulator
processed and terminates the block; anything else falls through.  The
returned flag is the terminate value of the Python function. -/
def handle_statement (proj : Project) (addr : Desc) (st : State) (succs : Successors)
    (stmt_idx : Nat) (stmt : RawStmt) : Except (EngineError × Successors) (Successors × Bool) :=
  match stmt with
  | none => .ok (succs, false)
  | some (.invoke method args ret_var) =>
    match get_next_linear_instruction proj.binary addr stmt_idx with
    | .error e => .error (e, succs)
    | .ok ret_addr =>
      if "NATIVE" ∈ method.attrs then
        let naddr := proj.nativeAddrOf method
        match setup_native_callsite proj st naddr method args (.soot ret_addr) ret_var with
        | .error e => .error (e, succs)
        | .ok nc =>
          .ok ({ succs with
                  succs := succs.succs ++ [⟨.nativeCall nc, .native naddr, .true_, .call⟩] },
               true)
      else
        match setup_callsite st (some args) (.soot ret_addr) ret_var with
        | .error e => .error (e, succs)
        | .ok invoke_state =>
          .ok ({ succs with
                  succs := succs.succs ++ [⟨.java invoke_state, .soot ⟨method, 0, 0⟩, .true_, .call⟩] },
               true)
  | some (.jump targets) =>
    match addJumpSuccs proj.binary addr st stmt_idx succs targets with
    | .error e => .error e
    | .ok S => .ok (S, true)
  | some (.ret return_value) =>
    match prepare_return_state st return_value with
    | .error e => .error (e, succs)
    | .ok ret_state =>
      .ok ({ succs := succs.succs ++ [⟨.java ret_state, st.callstack.top.ret_addr, .true_, .ret⟩],
             processed := true },
           true)
  | some .fallthrough => .ok (succs, false)

/-- The statement loop of _handle_block, with its for-else clause.  last
tracks the binding state of the loop variables stmt/stmt_idx: when the
loop never ran they are unbound and the for-else's "if stmt is None"
test raises UnboundLocalError; when they are bound, stmt is a lifted
statement object (never the Python None), and with a method at hand the
loop advances linearly, adding one successor with kind boring at the
next linear address (whose computation may raise
IncorrectLocationException). -/
def handleStmts (proj : Project) (addr : Desc) (st : State)
    (starting_stmt_idx : Nat) (method : Option Method) :
    Successors → Nat → Option Nat → List RawStmt → Except (EngineError × Successors) Successors
  | succs, _, last, [] =>
    match last with
    | none => .error (.unboundLocal, succs)
    | some stmt_idx =>
      match method with
      | none => .ok succs
      | some _ =>
        match get_next_linear_instruction proj.binary addr stmt_idx with
        | .error e => .error (e, succs)
        | .ok next_addr =>
          .ok { succs with succs := succs.succs ++ [⟨.java st, .soot next_addr, .true_, .boring⟩] }
  | succs, tindex, _, stmt :: rest =>
    let stmt_idx := starting_stmt_idx + tindex
    match handle_statement proj addr st succs stmt_idx stmt with
    | .error e => .error e
    | .ok (S, true) => .ok S
    | .ok (S, false) => handleStmts proj addr st starting_stmt_idx method S (tindex + 1) (some stmt_idx) rest

/-- SimEngineSoot._handle_block: iterate the block's statements from the
starting index (the Python slice block.statements[starting_stmt_idx:]),
breaking as soon as a statement terminates the block. -/
def handle_block (proj : Project) (addr : Desc) (st : State) (succs : Successors)
    (block : Block) (starting_stmt_idx : Nat) (method : Option Method) :
    Except (EngineError × Successors) Successors :=
  handleStmts proj addr st starting_stmt_idx method succs 0 none
    (block.statements.drop starting_stmt_idx)

/-- The outcome of _process: either the whole state was delegated to the
procedure engine (a registered sim-procedure hook), or the engine built
a successor accumulator itself. -/
inductive ProcessOutcome where
  | delegated
  | done (succs : Successors)
deriving DecidableEq, Repr

/-- SimEngineSoot._process: a terminator address marks the accumulator
processed with no successors; a hooked method is delegated; an address
whose method is not loaded (CLEError) degrades to a synthetic void
return to the caller; otherwise the current block is resolved by index
(an out-of-range block index raises IndexError) and handed to
_handle_block, and the accumulator is finally marked processed.  The
state's _ip_binary is the project's loader. -/
def process (proj : Project) (st : State) : Except (EngineError × Successors) ProcessOutcome :=
  let succs : Successors := ⟨[], false⟩
  match st.ip with
  | .terminator => .ok (.done { succs with processed := true })
  | .native _ => .error (.attributeError, succs)
  | .soot addr =>
    if proj.use_sim_procedures && proj.simProcedureAt addr then
      .ok .delegated
    else
      match proj.binary addr.method with
      | none =>
        match prepare_return_state st none with
        | .error e => .error (e, succs)
        | .ok ret_state =>
          .ok (.done ⟨[⟨.java ret_state, st.callstack.top.ret_addr, .true_, .ret⟩], true⟩)
      | some method =>
        match method.blocks.get? addr.block_idx with
        | none => .error (.indexError, succs)
        | some block =>
          match handle_block proj addr st succs block addr.stmt_idx (some method) with
          | .error e => .error e
          | .ok S => .ok (.done { S with processed := true })

/-- Modelled from the spec: ArchSoot.primitive_types (the architecture
description, not under src) — the declared Java primitive type names. -/
def primitive_types : List String :=
  ["boolean", "byte", "char", "short", "int", "long", "float", "double"]

/-- Modelled from the spec: the declared width in bits of each primitive
type (the architecture's sizeof table, not under src). -/
def typeWidth : String → Nat
  | "boolean" => 8
  | "byte" => 8
  | "char" => 16
  | "short" => 16
  | "int" => 32
  | "long" => 64
  | "float" => 32
  | "double" => 64
  | _ => 0

/-- Modelled from the spec: simos.cast_primitive (not under src) casts a
raw native return value explicitly to the declared primitive type's
width, whatever the raw value's width. -/
def cast_primitive (v : Value) (to_type : String) : Value :=
  ⟨typeWidth to_type, v.val % 2 ^ typeWidth to_type⟩

/-- The native-side state as seen by prepare_native_return_state: the
Soot-level state fields, the raw return value the foreign calling
convention yields (native_cc.get_return_val), and the jni_references
tables of call-scoped (local) and global opaque handles. -/
structure NativeState where
  st : State
  native_ret_val : Value
  jni_local_refs : List (Value × Value)
  jni_global_refs : List (Value × Value)
deriving DecidableEq, Repr

/-- Modelled from the spec: jni_references.lookup (the reference-table
plugin, not under src) resolves an opaque handle through the local and
global tables; a miss raises KeyError (none). -/
def jniLookup (ns : NativeState) (symbol : Value) : Option Value :=
  match (ns.jni_local_refs.find? (fun p => decide (p.1 = symbol))).map (·.2) with
  | some r => some r
  | none => (ns.jni_global_refs.find? (fun p => decide (p.1 = symbol))).map (·.2)

/-- SimEngineSoot.prepare_native_return_state: copy the native state, point
its instruction pointer at the frame's saved return address, set the
guard to true and the jumpkind to ret; when a return destination is
declared, read the raw foreign-convention return value and either cast
it to the declared primitive type or resolve it through the reference
table; tear the frame down via prepare_return_state; finally purge all
local references and return the singleton list of return states. -/
def prepare_native_return_state (native_state : NativeState) :
    Except EngineError (List NativeState) :=
  let ret_state := native_state
  let st0 := ret_state.st
  let st0 := { st0 with
                ip := st0.callstack.top.ret_addr,
                scratch_guard := some .true_,
                history_jumpkind := some .ret }
  let ret_var := st0.callstack.top.invoke_return_variable
  let ret_valueE : Except EngineError (Option Value) :=
    match ret_var with
    | some rv =>
      let ret_symbol := native_state.native_ret_val
      if rv.ty ∈ primitive_types then
        .ok (some (cast_primitive ret_symbol rv.ty))
      else
        match jniLookup ret_state ret_symbol with
        | some r => .ok (some r)
        | none => .error .keyError
    | none => .ok none
  match ret_valueE with
  | .error e => .error e
  | .ok ret_value =>
    match prepare_return_state st0 ret_value with
    | .error e => .error e
    | .ok st1 => .ok [{ ret_state with st := st1, jni_local_refs := [] }]

/-! Helper lemmas. -/

theorem liftFind_eq (bs : List Block) :
    ∀ t i, liftFind bs t i = if i ≤ t then bs.get? (t - i) else none := by
  induction bs with
  | nil => intro t i; simp [liftFind]
  | cons b rest ih =>
    intro t i
    by_cases h : i = t
    · subst h
      simp [liftFind]
    · rw [liftFind, if_neg h, ih]
      by_cases h2 : i ≤ t
      · have h3 : i + 1 ≤ t := by omega
        rw [if_pos h3, if_pos h2]
        have h4 : t - i = (t - (i + 1)) + 1 := by omega
        rw [h4, List.get?_cons_succ]
      · rw [if_neg h2, if_neg (by omega)]

theorem storeParams_cons_shape (params : List (Option JavaArgument)) :
    ∀ (s : Scope) (rest : Memory) (idx : Nat) (m2 : Memory),
      storeParams (s :: rest) idx params = .ok m2 → ∃ s2, m2 = s2 :: rest := by
  induction params with
  | nil =>
    intro s rest idx m2 h
    simp [storeParams] at h
    exact ⟨s, h.symm⟩
  | cons a ps ih =>
    intro s rest idx m2 h
    cases a with
    | none => simp [storeParams] at h
    | some arg =>
      rw [storeParams, Memory.store] at h
      exact ih _ _ _ _ h

theorem setup_callsite_shape (st0 : State) (args : Option (List (Option JavaArgument)))
    (ra : Addr) (rv : Option VarRef) (st1 : State)
    (h : setup_callsite st0 args ra rv = .ok st1) :
    st1.callstack = ⟨{ st0.callstack.top with ret_addr := ra, invoke_return_variable := rv },
                     st0.callstack.top :: st0.callstack.rest⟩
    ∧ (∃ s2, st1.memory = s2 :: st0.memory)
    ∧ st1.ip = st0.ip := by
  match args with
  | none =>
    rw [setup_callsite] at h
    cases h
    exact ⟨rfl, ⟨[], rfl⟩, rfl⟩
  | some [] =>
    rw [setup_callsite] at h
    cases h
    exact ⟨rfl, ⟨[], rfl⟩, rfl⟩
  | some (some tr :: params) =>
    rw [setup_callsite] at h
    simp only [Memory.pushStackFrame, Memory.store] at h
    match hsp : storeParams ([(VarRef.local "this" tr.ty, tr.value)] :: st0.memory) 0 params with
    | .error e => rw [hsp] at h; cases h
    | .ok m2 =>
      rw [hsp] at h
      cases h
      obtain ⟨s2, hs2⟩ := storeParams_cons_shape params _ _ _ _ hsp
      exact ⟨rfl, ⟨s2, hs2⟩, rfl⟩
  | some (none :: params) =>
    rw [setup_callsite] at h
    simp only [Memory.pushStackFrame] at h
    match hsp : storeParams ([] :: st0.memory) 0 params with
    | .error e => rw [hsp] at h; cases h
    | .ok m2 =>
      rw [hsp] at h
      cases h
      obtain ⟨s2, hs2⟩ := storeParams_cons_shape params _ _ _ _ hsp
      exact ⟨rfl, ⟨s2, hs2⟩, rfl⟩

/-! Concrete fixtures used by the witnesses and counterexamples. -/

/-- A non-native example method signature. -/
def exSig : MethodSig := ⟨"C", "m", [], [], "void"⟩

/-- A second non-native example method signature (an invoke target). -/
def exNSig : MethodSig := ⟨"C", "n", [], [], "void"⟩

/-- A native example method signature. -/
def exNatSig : MethodSig := ⟨"C", "f", [], ["NATIVE"], "int"⟩

/-- The bottom (base) frame of an example call stack. -/
def exBaseFrame : Frame := ⟨.terminator, none, none⟩

/-- An example receiver argument. -/
def exRecv : JavaArgument := ⟨⟨64, 100⟩, "C"⟩

/-- An example first parameter. -/
def exP0 : JavaArgument := ⟨⟨32, 5⟩, "int"⟩

/-- An example project over a single-method binary. -/
def exProject (meth : Method) : Project :=
  ⟨fun s => if s = exSig then some meth else none, false, fun _ => false,
   fun _ => 4096, ⟨64, 7⟩, fun _ => ⟨64, 1⟩⟩

/-! C5 — the next-linear-instruction rule. -/

/-- C5: for every (method, blockIndex, statementIndex) with the block index
in range, _get_next_linear_instruction advances to
(method, blockIndex, statementIndex+1) when statementIndex+1 is within
the current block, to (method, blockIndex+1, 0) when the next block
exists, and otherwise raises IncorrectLocation. -/
theorem next_linear_instruction_rule (B : MethodSig → Option Method) (m : MethodSig)
    (meth : Method) (bi si s0 : Nat) (blk : Block)
    (hB : B m = some meth) (hblk : meth.blocks.get? bi = some blk) :
    (si + 1 < blk.statements.length →
      get_next_linear_instruction B ⟨m, bi, s0⟩ si = .ok ⟨m, bi, si + 1⟩)
    ∧ (¬ si + 1 < blk.statements.length → bi + 1 < meth.blocks.length →
      get_next_linear_instruction B ⟨m, bi, s0⟩ si = .ok ⟨m, bi + 1, 0⟩)
    ∧ (¬ si + 1 < blk.statements.length → ¬ bi + 1 < meth.blocks.length →
      get_next_linear_instruction B ⟨m, bi, s0⟩ si = .error .incorrectLocation) := by
  rw [List.get?_eq_getElem?] at hblk
  refine ⟨fun h1 => ?_, fun h1 h2 => ?_, fun h1 h2 => ?_⟩
  · rw [get_next_linear_instruction]
    simp [hB, hblk, h1]
  · rw [get_next_linear_instruction]
    simp [hB, hblk, h1, h2]
  · rw [get_next_linear_instruction]
    simp [hB, hblk, h1, h2]

/-- The method used by the C5 witness: two blocks, the first with two
statements. -/
def exMethC5 : Method := ⟨[⟨[some .fallthrough, some .fallthrough]⟩, ⟨[some .fallthrough]⟩]⟩

/-- Witness for C5 at a concrete binary: advancing from statement 0 of
block 0 stays within the block. -/
theorem next_linear_instruction_rule_witness :
    (exProject exMethC5).binary exSig = some exMethC5
    ∧ exMethC5.blocks.get? 0 = some ⟨[some .fallthrough, some .fallthrough]⟩
    ∧ get_next_linear_instruction (exProject exMethC5).binary ⟨exSig, 0, 9⟩ 0 =
        .ok ⟨exSig, 0, 1⟩ :=
  ⟨by decide, by decide,
   (next_linear_instruction_rule (exProject exMethC5).binary exSig exMethC5 0 0 9
      ⟨[some .fallthrough, some .fallthrough]⟩ (by decide) (by decide)).1 (by decide)⟩

/-! C8 — the Block Resolver. -/

/-- C8: for a loaded method, lift with a statement index returns exactly
the block at the given block index (none when out of range), and with
no statement index returns the method's first block (none when the
method has no blocks). -/
theorem lift_block_resolution (B : MethodSig → Option Method) (m : MethodSig)
    (meth : Method) (hB : B m = some meth) :
    (∀ bi si, lift B m bi (some si) = .ok (meth.blocks.get? bi))
    ∧ (∀ bi, lift B m bi none = .ok meth.blocks.head?) := by
  constructor
  · intro bi si
    rw [lift]
    simp only [hB]
    rw [liftFind_eq]
    simp
  · intro bi
    rw [lift]
    simp only [hB]
    cases meth.blocks <;> simp

/-- Witness for C8: in-range resolution, out-of-range resolution, and
resolution with no statement index, at a concrete two-block method. -/
theorem lift_block_resolution_witness :
    (exProject exMethC5).binary exSig = some exMethC5
    ∧ lift (exProject exMethC5).binary exSig 1 (some 0) = .ok (some ⟨[some .fallthrough]⟩)
    ∧ lift (exProject exMethC5).binary exSig 5 (some 0) = .ok none
    ∧ lift (exProject exMethC5).binary exSig 0 none =
        .ok (some ⟨[some .fallthrough, some .fallthrough]⟩) :=
  ⟨by decide,
   (lift_block_resolution (exProject exMethC5).binary exSig exMethC5 (by decide)).1 1 0,
   (lift_block_resolution (exProject exMethC5).binary exSig exMethC5 (by decide)).1 5 0,
   (lift_block_resolution (exProject exMethC5).binary exSig exMethC5 (by decide)).2 0⟩

/-! C2 — native call-site argument marshalling. -/

/-- The state used by the C2 and C3 scenarios: an entry frame over the base
frame, one active memory scope over the caller scope. -/
def exStateC2 : State :=
  ⟨.soot ⟨exSig, 0, 0⟩, ⟨⟨.terminator, none, none⟩, [exBaseFrame]⟩, [[], []], none, none, none⟩

/-- C2: for an instance native call with argument list
[receiver, p0], the engine passes the final list
[env, receiver, p0, receiver] to the foreign call constructor — the
receiver is inserted a second time behind the remaining parameters
(args.insert(1, this_ref) after it was already kept as ref), so the
final list is not the claimed [env, receiver, p0]. -/
theorem native_callsite_receiver_duplicated :
    (setup_native_callsite (exProject ⟨[]⟩) exStateC2 4096 exNatSig [some exRecv, some exP0]
        (.soot ⟨exSig, 0, 1⟩) none).toOption.map NativeCallArgs.args =
      some [some ⟨⟨64, 7⟩, "JNIEnv"⟩, some exRecv, some exP0, some exRecv]
    ∧ some [some (⟨⟨64, 7⟩, "JNIEnv"⟩ : JavaArgument), some exRecv, some exP0, some exRecv] ≠
        some [some ⟨⟨64, 7⟩, "JNIEnv"⟩, some exRecv, some exP0] := by
  exact ⟨by decide, by decide⟩

/-! C3 — zero-statement blocks. -/

/-- The method used by the C3 scenario: a single block with zero
statements. -/
def exMethEmpty : Method := ⟨[⟨[]⟩]⟩

/-- C3: processing a zero-statement block does not log-and-return: the
for-else clause of _handle_block reads the loop variable stmt, which
was never assigned, so the engine raises UnboundLocalError (with no
successor emitted) instead of returning normally. -/
theorem empty_block_unbound_local :
    process (exProject exMethEmpty) exStateC2 = .error (.unboundLocal, ⟨[], false⟩) := by
  decide

/-! C6 — setup_callsite / prepare_return_state round trip. -/

/-- C6: setting up a call site and then preparing the return state restores
the call-stack depth and the memory-scope count to their pre-call
values, and a declared return value is stored in the caller's
destination slot after the round trip. -/
theorem callsite_return_roundtrip (st0 : State) (args : Option (List (Option JavaArgument)))
    (ret_addr : Addr) (dest : VarRef) (v : Value) (st1 : State)
    (h1 : setup_callsite st0 args ret_addr (some dest) = .ok st1)
    (s : Scope) (ms : Memory) (hmem : st0.memory = s :: ms) :
    ∃ st2, prepare_return_state st1 (some v) = .ok st2
      ∧ st2.callstack.depth = st0.callstack.depth
      ∧ st2.memory.length = st0.memory.length
      ∧ Memory.load st2.memory dest = some v := by
  obtain ⟨hcs, ⟨s2, hm⟩, _⟩ := setup_callsite_shape st0 args ret_addr (some dest) st1 h1
  rw [prepare_return_state, hcs, hm, hmem]
  simp only [Callstack.pop, Memory.store]
  refine ⟨_, rfl, ?_, ?_, ?_⟩
  · simp [Callstack.depth]
  · simp [hmem]
  · simp [Memory.load]

/-- The pre-call state used by the C6 witness: caller scope binding x. -/
def exStateC6 : State :=
  ⟨.soot ⟨exSig, 0, 0⟩, ⟨⟨.terminator, none, none⟩, [exBaseFrame]⟩,
   [[(.local "x" "int", ⟨32, 1⟩)]], none, none, none⟩

/-- The state produced by setup_callsite in the C6 witness. -/
def exStateC6' : State :=
  ⟨.soot ⟨exSig, 0, 0⟩,
   ⟨⟨.soot ⟨exSig, 0, 1⟩, some (.local "r" "int"), none⟩,
    [⟨.terminator, none, none⟩, exBaseFrame]⟩,
   [[(.paramRef 0 "int", ⟨32, 5⟩), (.local "this" "C", ⟨64, 100⟩)],
    [(.local "x" "int", ⟨32, 1⟩)]],
   none, none, none⟩

/-- Witness for C6 at a concrete call site with a receiver, one parameter,
and return destination r. -/
theorem callsite_return_roundtrip_witness :
    ∃ st2, prepare_return_state exStateC6' (some ⟨32, 42⟩) = .ok st2
      ∧ st2.callstack.depth = exStateC6.callstack.depth
      ∧ st2.memory.length = exStateC6.memory.length
      ∧ Memory.load st2.memory (.local "r" "int") = some ⟨32, 42⟩ :=
  callsite_return_roundtrip exStateC6 (some [some exRecv, some exP0]) (.soot ⟨exSig, 0, 1⟩)
    (.local "r" "int") ⟨32, 42⟩ exStateC6' (by decide)
    [(.local "x" "int", ⟨32, 1⟩)] [] (by decide)

/-! C9 — native returns with a declared primitive type. -/

/-- C9: when a native call returns with a declared destination slot of
primitive type, the value stored by prepare_native_return_state in the
caller's slot is the raw foreign-convention return value cast to the
declared type's width, for every raw value (of any width). -/
theorem native_return_primitive_cast (ns : NativeState) (dest : VarRef)
    (hrv : ns.st.callstack.top.invoke_return_variable = some dest)
    (hprim : dest.ty ∈ primitive_types)
    (f : Frame) (fs : List Frame) (hcs : ns.st.callstack.rest = f :: fs)
    (m0 s : Scope) (ms : Memory) (hmem : ns.st.memory = m0 :: s :: ms) :
    ∃ ns2, prepare_native_return_state ns = .ok [ns2]
      ∧ Memory.load ns2.st.memory dest = some (cast_primitive ns.native_ret_val dest.ty)
      ∧ (cast_primitive ns.native_ret_val dest.ty).width = typeWidth dest.ty := by
  rw [prepare_native_return_state]
  simp only [hrv, if_pos hprim]
  rw [prepare_return_state]
  simp only [hrv]
  obtain ⟨t, ht⟩ : ∃ t, ns.st.callstack = ⟨t, f :: fs⟩ := ⟨ns.st.callstack.top, by
    cases h : ns.st.callstack with
    | mk top rest => rw [h] at hcs; simp at hcs ⊢; exact hcs⟩
  rw [ht, hmem]
  simp only [Callstack.pop, Memory.store]
  exact ⟨_, rfl, by simp [Memory.load], rfl⟩

/-- The native state used by the C9 witness: a declared boolean
destination and a raw 64-bit return value 511. -/
def exNativeState : NativeState :=
  ⟨⟨.native 4096, ⟨⟨.soot ⟨exSig, 0, 1⟩, some (.local "b" "boolean"), none⟩, [exBaseFrame]⟩,
    [[], []], none, none, none⟩,
   ⟨64, 511⟩, [], []⟩

/-- Witness for C9: the raw 64-bit value 511 is stored as the 8-bit boolean
255. -/
theorem native_return_primitive_cast_witness :
    ∃ ns2, prepare_native_return_state exNativeState = .ok [ns2]
      ∧ Memory.load ns2.st.memory (.local "b" "boolean") =
          some (cast_primitive ⟨64, 511⟩ "boolean")
      ∧ (cast_primitive ⟨64, 511⟩ "boolean").width = typeWidth "boolean" :=
  native_return_primitive_cast exNativeState (.local "b" "boolean") rfl (by decide)
    exBaseFrame [] rfl [] [] [] rfl

/-! C1 — returns with an empty call stack. -/

/-- The method used by the C1 counterexample: a return-void followed by a
further statement. -/
def exMethRet : Method := ⟨[⟨[some (.ret none), some .fallthrough]⟩]⟩

/-- C1 counterexample: at a concrete state whose current statement is a
return and whose call stack is empty (the entry frame returns to the
terminator), process yields exactly one successor whose transition kind
is ret (to the saved return address), not exit: the dispatcher's return
branch never invokes terminate_execution. -/
theorem return_empty_stack_exit_counterexample :
    process (exProject exMethRet) exStateC2 =
      .ok (.done ⟨[⟨.java ⟨.soot ⟨exSig, 0, 0⟩, ⟨exBaseFrame, []⟩, [[]], none, none, none⟩,
                    .terminator, .true_, .ret⟩], true⟩)
    ∧ Jumpkind.ret ≠ Jumpkind.exit := by
  exact ⟨by decide, by decide⟩

/-- C1 (amended): a return processed with an empty call stack (the current
frame's saved return address is the terminator) yields exactly one
successor, with transition kind ret, targeting the terminator, and
halts processing of the block's remaining statements, marking the
accumulator processed. -/
theorem return_empty_stack_single_ret_successor (proj : Project) (m : MethodSig) (bi si : Nat)
    (cs : Callstack) (mem : Memory) (irv : Option Value) (sg : Option Guard)
    (hj : Option Jumpkind)
    (hhook : proj.use_sim_procedures = false)
    (meth : Method) (hB : proj.binary m = some meth)
    (blk : Block) (hblk : meth.blocks.get? bi = some blk)
    (v : Option Value) (rest : List RawStmt)
    (hstmts : blk.statements.drop si = some (.ret v) :: rest)
    (hempty : cs.top.ret_addr = .terminator)
    (rst : State)
    (hprep : prepare_return_state ⟨.soot ⟨m, bi, si⟩, cs, mem, irv, sg, hj⟩ v = .ok rst) :
    process proj ⟨.soot ⟨m, bi, si⟩, cs, mem, irv, sg, hj⟩ =
      .ok (.done ⟨[⟨.java rst, .terminator, .true_, .ret⟩], true⟩) := by
  rw [process]
  simp only [hhook, Bool.false_and, if_neg, hB, hblk, Bool.false_eq_true, ite_false]
  rw [handle_block, hstmts]
  rw [handleStmts, handle_statement]
  simp only [hprep]
  simp [hempty]

/-- Witness for C1 (amended): a concrete mid-block return-void with an
entry frame returning to the terminator. -/
theorem return_empty_stack_single_ret_successor_witness :
    process (exProject exMethRet) exStateC2 =
      .ok (.done ⟨[⟨.java ⟨.soot ⟨exSig, 0, 0⟩, ⟨exBaseFrame, []⟩, [[]], none, none, none⟩,
                    .terminator, .true_, .ret⟩], true⟩) :=
  return_empty_stack_single_ret_successor (exProject exMethRet) exSig 0 0
    ⟨⟨.terminator, none, none⟩, [exBaseFrame]⟩ [[], []] none none none
    rfl exMethRet (by decide) ⟨[some (.ret none), some .fallthrough]⟩ (by decide)
    none [some .fallthrough] rfl rfl
    ⟨.soot ⟨exSig, 0, 0⟩, ⟨exBaseFrame, []⟩, [[]], none, none, none⟩ (by decide)

/-! C4 — invoke statements. -/

/-- The method used by the C4 counterexample: an invoke at the last
statement of the method's last block. -/
def exMethInvEnd : Method := ⟨[⟨[some (.invoke exNSig [] none)]⟩]⟩

/-- C4 counterexample: for an invoke at the last statement of the method's
last block, process does not emit a call successor: computing the
return address raises IncorrectLocation first, and no successor at all
is produced. -/
theorem invoke_single_call_successor_counterexample :
    process (exProject exMethInvEnd) exStateC2 = .error (.incorrectLocation, ⟨[], false⟩)
    ∧ ∀ S : ProcessOutcome, process (exProject exMethInvEnd) exStateC2 ≠ .ok S := by
  have h : process (exProject exMethInvEnd) exStateC2 =
      .error (.incorrectLocation, ⟨[], false⟩) := by decide
  exact ⟨h, fun S hS => by rw [h] at hS; cases hS⟩

/-- C4 (amended): for every statement that translates to an invoke whose
return address (the next linear instruction) exists, process emits
exactly one successor, with transition kind call and true guard, and
processes no further statements of the block; for a non-native callee
the successor's target is the callee's entry (block 0, statement 0),
for a native callee it is the native address of the callee. -/
theorem invoke_single_call_successor (proj : Project) (m : MethodSig) (bi si : Nat)
    (cs : Callstack) (mem : Memory) (irv : Option Value) (sg : Option Guard)
    (hj : Option Jumpkind)
    (hhook : proj.use_sim_procedures = false)
    (meth : Method) (hB : proj.binary m = some meth)
    (blk : Block) (hblk : meth.blocks.get? bi = some blk)
    (callee : MethodSig) (args : List (Option JavaArgument)) (rv : Option VarRef)
    (rest : List RawStmt)
    (hstmts : blk.statements.drop si = some (.invoke callee args rv) :: rest)
    (ra : Desc) (hra : get_next_linear_instruction proj.binary ⟨m, bi, si⟩ si = .ok ra) :
    (∀ st1, "NATIVE" ∉ callee.attrs →
      setup_callsite ⟨.soot ⟨m, bi, si⟩, cs, mem, irv, sg, hj⟩ (some args) (.soot ra) rv =
        .ok st1 →
      process proj ⟨.soot ⟨m, bi, si⟩, cs, mem, irv, sg, hj⟩ =
        .ok (.done ⟨[⟨.java st1, .soot ⟨callee, 0, 0⟩, .true_, .call⟩], true⟩))
    ∧ (∀ nc, "NATIVE" ∈ callee.attrs →
      setup_native_callsite proj ⟨.soot ⟨m, bi, si⟩, cs, mem, irv, sg, hj⟩
          (proj.nativeAddrOf callee) callee args (.soot ra) rv = .ok nc →
      process proj ⟨.soot ⟨m, bi, si⟩, cs, mem, irv, sg, hj⟩ =
        .ok (.done ⟨[⟨.nativeCall nc, .native (proj.nativeAddrOf callee), .true_, .call⟩],
                    true⟩)) := by
  constructor
  · intro st1 hnat hsetup
    rw [process]
    simp only [hhook, Bool.false_and, if_neg, hB, hblk, Bool.false_eq_true, ite_false]
    rw [handle_block, hstmts]
    rw [handleStmts, handle_statement]
    simp only [Nat.add_zero, hra, if_neg hnat, hsetup, List.nil_append]
  · intro nc hnat hsetup
    rw [process]
    simp only [hhook, Bool.false_and, if_neg, hB, hblk, Bool.false_eq_true, ite_false]
    rw [handle_block, hstmts]
    rw [handleStmts, handle_statement]
    simp only [Nat.add_zero, hra, if_pos hnat, hsetup, List.nil_append]

/-- The method used by the C4 witness: an invoke followed by a further
statement, with a following block for the return address. -/
def exMethInvMid : Method :=
  ⟨[⟨[some (.invoke exNSig [] none), some (.ret none)]⟩, ⟨[some .fallthrough]⟩]⟩

/-- Witness for C4 (amended): a concrete mid-block invoke of a non-native
callee yields the single call successor targeting the callee's entry. -/
theorem invoke_single_call_successor_witness :
    process (exProject exMethInvMid) exStateC2 =
      .ok (.done ⟨[⟨.java ⟨.soot ⟨exSig, 0, 0⟩,
                          ⟨⟨.soot ⟨exSig, 0, 1⟩, none, none⟩,
                           [⟨.terminator, none, none⟩, exBaseFrame]⟩,
                          [[], [], []], none, none, none⟩,
                    .soot ⟨exNSig, 0, 0⟩, .true_, .call⟩], true⟩) :=
  (invoke_single_call_successor (exProject exMethInvMid) exSig 0 0
      ⟨⟨.terminator, none, none⟩, [exBaseFrame]⟩ [[], []] none none none
      rfl exMethInvMid (by decide) ⟨[some (.invoke exNSig [] none), some (.ret none)]⟩
      (by decide) exNSig [] none [some (.ret none)] rfl ⟨exSig, 0, 1⟩ (by decide)).1
    ⟨.soot ⟨exSig, 0, 0⟩,
     ⟨⟨.soot ⟨exSig, 0, 1⟩, none, none⟩, [⟨.terminator, none, none⟩, exBaseFrame]⟩,
     [[], [], []], none, none, none⟩
    (by decide) (by decide)

/-! C10 — invokes at the end of a method. -/

/-- C10: for an invoke at the last statement of a method's last block,
process raises IncorrectLocation while computing the call's return
address, before any call successor is emitted: the error carries an
empty successor accumulator. -/
theorem invoke_at_method_end_incorrect_location (proj : Project) (m : MethodSig) (bi si : Nat)
    (cs : Callstack) (mem : Memory) (irv : Option Value) (sg : Option Guard)
    (hj : Option Jumpkind)
    (hhook : proj.use_sim_procedures = false)
    (meth : Method) (hB : proj.binary m = some meth)
    (blk : Block) (hblk : meth.blocks.get? bi = some blk)
    (callee : MethodSig) (args : List (Option JavaArgument)) (rv : Option VarRef)
    (hstmts : blk.statements.drop si = [some (.invoke callee args rv)])
    (hlastS : ¬ si + 1 < blk.statements.length)
    (hlastB : ¬ bi + 1 < meth.blocks.length) :
    process proj ⟨.soot ⟨m, bi, si⟩, cs, mem, irv, sg, hj⟩ =
      .error (.incorrectLocation, ⟨[], false⟩) := by
  have hra : get_next_linear_instruction proj.binary ⟨m, bi, si⟩ si =
      .error .incorrectLocation :=
    (next_linear_instruction_rule proj.binary m meth bi si si blk hB hblk).2.2 hlastS hlastB
  rw [process]
  simp only [hhook, Bool.false_and, if_neg, hB, hblk, Bool.false_eq_true, ite_false]
  rw [handle_block, hstmts]
  rw [handleStmts, handle_statement]
  simp only [Nat.add_zero, hra]

/-- Witness for C10: a concrete method whose single block ends in an
invoke. -/
theorem invoke_at_method_end_incorrect_location_witness :
    process (exProject exMethInvEnd) exStateC2 = .error (.incorrectLocation, ⟨[], false⟩) :=
  invoke_at_method_end_incorrect_location (exProject exMethInvEnd) exSig 0 0
    ⟨⟨.terminator, none, none⟩, [exBaseFrame]⟩ [[], []] none none none
    rfl exMethInvEnd (by decide) ⟨[some (.invoke exNSig [] none)]⟩ (by decide)
    exNSig [] none rfl (by decide) (by decide)

/-! C7 — untranslatable statements are skipped. -/

/-- C7: a statement whose translation fails adds no successor and does not
terminate the block (the dispatcher logs and skips it); in particular,
an untranslatable statement followed by a valid return yields exactly
the return's successor. -/
theorem untranslatable_statement_skipped :
    (∀ (proj : Project) (addr : Desc) (st : State) (succs : Successors) (i : Nat),
      handle_statement proj addr st succs i none = .ok (succs, false))
    ∧ (∀ (proj : Project) (m : MethodSig) (bi si : Nat) (cs : Callstack) (mem : Memory)
        (irv : Option Value) (sg : Option Guard) (hj : Option Jumpkind),
        proj.use_sim_procedures = false →
        ∀ (meth : Method), proj.binary m = some meth →
        ∀ (blk : Block), meth.blocks.get? bi = some blk →
        ∀ (v : Option Value) (rest : List RawStmt),
          blk.statements.drop si = none :: some (.ret v) :: rest →
        ∀ (rst : State),
          prepare_return_state ⟨.soot ⟨m, bi, si⟩, cs, mem, irv, sg, hj⟩ v = .ok rst →
        process proj ⟨.soot ⟨m, bi, si⟩, cs, mem, irv, sg, hj⟩ =
          .ok (.done ⟨[⟨.java rst, cs.top.ret_addr, .true_, .ret⟩], true⟩)) := by
  constructor
  · intro proj addr st succs i
    rfl
  · intro proj m bi si cs mem irv sg hj hhook meth hB blk hblk v rest hstmts rst hprep
    rw [process]
    simp only [hhook, Bool.false_and, if_neg, hB, hblk, Bool.false_eq_true, ite_false]
    rw [handle_block, hstmts]
    simp only [handleStmts, handle_statement, Nat.add_zero]
    simp only [hprep, List.nil_append]

/-- The method used by the C7 witness: an untranslatable statement followed
by a valid value return. -/
def exMethSkip : Method := ⟨[⟨[none, some (.ret (some ⟨32, 3⟩))]⟩]⟩

/-- The caller state used by the C7 witness: the frame declares a return
destination r and a return address in the caller. -/
def exStateSkip : State :=
  ⟨.soot ⟨exSig, 0, 0⟩, ⟨⟨.soot ⟨exNSig, 1, 2⟩, some (.local "r" "int"), none⟩, [exBaseFrame]⟩,
   [[], []], none, none, none⟩

/-- Witness for C7: the untranslatable first statement produces no
successor, and the block yields exactly the return's successor with
the value 3 stored in the caller's destination r. -/
theorem untranslatable_statement_skipped_witness :
    process (exProject exMethSkip) exStateSkip =
      .ok (.done ⟨[⟨.java ⟨.soot ⟨exSig, 0, 0⟩, ⟨exBaseFrame, []⟩,
                          [[(.local "r" "int", ⟨32, 3⟩)]], none, none, none⟩,
                    .soot ⟨exNSig, 1, 2⟩, .true_, .ret⟩], true⟩) :=
  untranslatable_statement_skipped.2 (exProject exMethSkip) exSig 0 0
    ⟨⟨.soot ⟨exNSig, 1, 2⟩, some (.local "r" "int"), none⟩, [exBaseFrame]⟩ [[], []]
    none none none rfl exMethSkip (by decide) ⟨[none, some (.ret (some ⟨32, 3⟩))]⟩ (by decide)
    (some ⟨32, 3⟩) [] rfl
    ⟨.soot ⟨exSig, 0, 0⟩, ⟨exBaseFrame, []⟩, [[(.local "r" "int", ⟨32, 3⟩)]], none, none, none⟩
    (by decide)

end Soot
